import Mathlib

/-!
Shallow embedding of the core logic of the bioos-mcp-server repository:

* `src/bioos_mcp/tools/compose.py` — template classification
  (`_parse_spec`, `classify`), per-sample filling (`fill_one_sample`)
  and batch composition (`build_inputs`);
* `src/bioos_mcp/bioos_mcp_server.py` — sample-count normalization
  (`WorkflowInputParams._normalize_params`), the `search_dockstore`
  tool tail (rerank fallback, result formatting call);
* `src/bioos_mcp/tools/rerank_client.py` — `RerankClient.rerank`;
* `src/bioos_mcp/tools/dockstore_search.py` — `_build_search_body`.

Python dicts are modelled as association lists (first binding wins on
lookup; the dicts handled by the code have unique keys), Python values as
the inductive `Value`, machine floats as exact rationals (the code never
computes with them, it only parses and moves them around), and fallible
code as `Except`/`Option`.
-/

namespace Bioos

/-- Python values as far as the composition engine needs them: the
default-value parser of compose.py produces booleans, ints, floats and
strings, and samples carry such values around unchanged. -/
inductive Value where
  | str (s : String)
  | int (n : Int)
  | float (q : ℚ)
  | bool (b : Bool)
deriving DecidableEq, Repr

/-! ### Python string helpers (ASCII model)

CPython specifics that the repository never exercises are not modelled:
digit-group underscores in numeric literals, non-ASCII digits, and
non-ASCII case mapping. -/

/-- Characters treated as whitespace by Python's default str.strip and by
int()/float() (ASCII part: space, tab, newline, CR, VT, FF). -/
def pyWsChar (c : Char) : Bool :=
  c == ' ' || c == '\t' || c == '\n' || c == '\r' ||
  c == Char.ofNat 11 || c == Char.ofNat 12

/-- Quote characters stripped by compose.py's strip-of-quotes: the double
quote and the single quote. -/
def pyQuoteChar (c : Char) : Bool :=
  c == Char.ofNat 34 || c == Char.ofNat 39

/-- Drop characters satisfying p from both ends of a list. -/
def stripList (p : Char → Bool) (l : List Char) : List Char :=
  ((l.dropWhile p).reverse.dropWhile p).reverse

/-- Python str.strip() (default whitespace form). -/
def pyStripWs (s : String) : String :=
  ⟨stripList pyWsChar s.data⟩

/-- Python str.strip of the two quote characters, as in compose.py. -/
def pyStripQuotes (s : String) : String :=
  ⟨stripList pyQuoteChar s.data⟩

/-- Numeric value of a list of decimal digit characters. -/
def digitsVal (l : List Char) : Nat :=
  l.foldl (fun a c => a * 10 + (c.toNat - 48)) 0

/-- Python int(s) on the strings reachable in compose.py: surrounding
whitespace ignored, optional single sign, then a nonempty run of decimal
digits; anything else raises ValueError (modelled as none). -/
def pyInt (s : String) : Option Int :=
  let cs := stripList pyWsChar s.data
  let signed : Bool × List Char :=
    match cs with
    | '-' :: rest => (true, rest)
    | '+' :: rest => (false, rest)
    | rest => (false, rest)
  let ds := signed.2
  if ds.isEmpty then none
  else if ds.all Char.isDigit then
    some (if signed.1 then -(digitsVal ds : Int) else (digitsVal ds : Int))
  else none

/-- Mantissa of a Python float literal: digits, optionally with one dot;
at least one digit overall. Returns the exact rational value. -/
def pyFloatMantissa (cs : List Char) : Option ℚ :=
  let ip := cs.takeWhile Char.isDigit
  let rest := cs.drop ip.length
  match rest with
  | [] => if ip.isEmpty then none else some ((digitsVal ip : ℚ))
  | '.' :: fp =>
    if fp.all Char.isDigit then
      if ip.isEmpty && fp.isEmpty then none
      else some ((digitsVal ip : ℚ) + (digitsVal fp : ℚ) / (10 : ℚ) ^ fp.length)
    else none
  | _ => none

/-- Python float(s) on the strings reachable in compose.py: surrounding
whitespace ignored, optional sign, decimal mantissa, optional exponent
part. The value is kept as an exact rational; the code never performs
arithmetic on it, so rounding is irrelevant. inf/nan spellings contain no
dot and are unreachable where float() is called. -/
def pyFloat (s : String) : Option ℚ :=
  let cs := stripList pyWsChar s.data
  let signed : Bool × List Char :=
    match cs with
    | '-' :: rest => (true, rest)
    | '+' :: rest => (false, rest)
    | rest => (false, rest)
  let body := signed.2
  let mant := body.takeWhile (fun c => !(c == 'e' || c == 'E'))
  let rest := body.drop mant.length
  let expPart : Option Int :=
    match rest with
    | [] => some 0
    | _ :: er =>
      let esigned : Bool × List Char :=
        match er with
        | '-' :: r => (true, r)
        | '+' :: r => (false, r)
        | r => (false, r)
      if esigned.2.isEmpty then none
      else if esigned.2.all Char.isDigit then
        some (if esigned.1 then -(digitsVal esigned.2 : Int) else (digitsVal esigned.2 : Int))
      else none
  match pyFloatMantissa mant, expPart with
  | some m, some e =>
    some ((if signed.1 then -m else m) * (10 : ℚ) ^ e)
  | _, _ => none

/-! ### The annotation search of compose.py

compose.py matches template value strings against the case-insensitive
regular expression

  \( \s* optional (?: \s* , \s* default \s* = \s* ([^)]+) )? \s* \)

with re.search (leftmost match). The model below scans every start
position left to right, tries the group-present alternative first and
falls back to the group-absent one, exactly as the regex engine does.

On the captured group: the engine makes \s* after the equals sign consume
the maximal whitespace that still leaves the one-or-more non-parenthesis
characters nonempty. The model captures the whole nonempty run of
non-parenthesis characters instead; the two differ only in leading
whitespace of the capture, which the subsequent .strip() in `_parse_spec`
erases, so the difference is unobservable through `_parse_spec`. -/

/-- Case-insensitive match of a lowercase pattern against the front of a
character list; returns the remainder on success. -/
def matchCI : List Char → List Char → Option (List Char)
  | [], cs => some cs
  | _ :: _, [] => none
  | p :: ps, c :: cs => if c.toLower == p then matchCI ps cs else none

/-- Skip leading whitespace. -/
def skipWs (cs : List Char) : List Char := cs.dropWhile pyWsChar

/-- Try to match the ", default = CAPTURE )" part right after "optional".
Returns the captured text. -/
def tryDefaultPart (cs : List Char) : Option String :=
  match skipWs cs with
  | ',' :: cs1 =>
    match matchCI "default".data (skipWs cs1) with
    | some cs2 =>
      match skipWs cs2 with
      | '=' :: cs3 =>
        let cap := cs3.takeWhile (fun c => !(c == ')'))
        if cap.isEmpty then none
        else
          match cs3.drop cap.length with
          | ')' :: _ => some ⟨cap⟩
          | _ => none
      | _ => none
    | none => none
  | _ => none

/-- Whether "\s* )" matches right after "optional" (annotation with no
default). -/
def tryCloseNoDefault (cs : List Char) : Bool :=
  match skipWs cs with
  | ')' :: _ => true
  | _ => false

/-- Try to match the whole annotation at this exact position. Result:
none = no match here; some none = annotation without default;
some (some cap) = annotation with captured default text. -/
def tryAnnotAt (cs : List Char) : Option (Option String) :=
  match cs with
  | '(' :: cs1 =>
    match matchCI "optional".data (skipWs cs1) with
    | some cs2 =>
      match tryDefaultPart cs2 with
      | some cap => some (some cap)
      | none => if tryCloseNoDefault cs2 then some none else none
    | none => none
  | _ => none

/-- re.search: scan start positions left to right. -/
def optSearch : List Char → Option (Option String)
  | [] => none
  | c :: cs =>
    match tryAnnotAt (c :: cs) with
    | some r => some r
    | none => optSearch cs

/-! ### `_parse_spec` and `classify` (compose.py lines 11-52) -/

/-- Field classification result: the (kind, default) pair returned by
compose.py's `_parse_spec`. -/
inductive SpecKind where
  | required
  | opt_def (v : Value)
  | opt_nodef
deriving DecidableEq, Repr

/-- Python str.lower (ASCII model), character by character. -/
def pyLower (s : String) : String :=
  ⟨s.data.map Char.toLower⟩

/-- Python the-dot-is-in-the-string test of `_parse_spec`. -/
def hasDot (s : String) : Bool :=
  s.data.contains '.'

/-- The try-block of `_parse_spec`: float when the text contains a dot,
int otherwise; a parse failure (ValueError) is none, caught by the
caller which falls back to the plain string. -/
def tryNumber (x : String) : Option Value :=
  if hasDot x then (pyFloat x).map Value.float
  else (pyInt x).map Value.int

/-- compose.py `_parse_spec`: search the annotation; no match means
required; a match without default means optional-without-default; a
match with default strips whitespace then quotes, recognizes boolean
literals, then tries the numeric parse, falling back to the string. -/
def parse_spec (spec : String) : SpecKind :=
  match optSearch spec.data with
  | none => .required
  | some none => .opt_nodef
  | some (some cap) =>
    let raw := pyStripQuotes (pyStripWs cap)
    if pyLower raw == "true" || pyLower raw == "false" then
      .opt_def (.bool (pyLower raw == "true"))
    else
      match tryNumber raw with
      | some v => .opt_def v
      | none => .opt_def (.str raw)

/-- Classifier behavior as worded by the specification (claim C2): no
annotation means Required; an annotation without a default means
OptionalWithoutDefault; with a default X, X is stripped of surrounding
whitespace and quotes, parsed as a boolean when it lowercases to true or
false, as a float when it contains a dot, otherwise as an integer,
falling back to the trimmed string on parse failure. Stated separately
from `parse_spec` so that the claim theorem is a genuine refinement of
the code by the spec wording. -/
def parse_spec_spec (spec : String) : SpecKind :=
  match optSearch spec.data with
  | none => .required
  | some none => .opt_nodef
  | some (some cap) =>
    let x := pyStripQuotes (pyStripWs cap)
    if pyLower x = "true" then .opt_def (.bool true)
    else if pyLower x = "false" then .opt_def (.bool false)
    else if hasDot x then
      match pyFloat x with
      | some q => .opt_def (.float q)
      | none => .opt_def (.str x)
    else
      match pyInt x with
      | some n => .opt_def (.int n)
      | none => .opt_def (.str x)

/-- Association-list model of a Python dict (keys unique in all dicts the
code handles; lookup returns the first binding). -/
abbrev Dict (α : Type) := List (String × α)

/-- Python d[k] / d.get(k): value of the first binding of k. -/
def dictGet? {α : Type} (d : Dict α) (k : String) : Option α :=
  (d.find? (fun p => p.1 == k)).map (fun p => p.2)

/-- Python list(d) / set(d): the keys in binding order. -/
def dictKeys {α : Type} (d : Dict α) : List String :=
  d.map (fun p => p.1)

/-- Python k in d. -/
def dictHas {α : Type} (d : Dict α) (k : String) : Bool :=
  (dictGet? d k).isSome

/-- compose.py `classify`: split a template into required keys, defaulted
keys with their parsed defaults, and optional-without-default keys, in
template order. -/
def classify (tpl : Dict String) : List String × Dict Value × List String :=
  (tpl.filterMap (fun p =>
      match parse_spec p.2 with
      | .required => some p.1
      | _ => none),
   tpl.filterMap (fun p =>
      match parse_spec p.2 with
      | .opt_def v => some (p.1, v)
      | _ => none),
   tpl.filterMap (fun p =>
      match parse_spec p.2 with
      | .opt_nodef => some p.1
      | _ => none))

/-! ### `fill_one_sample` and `build_inputs` (compose.py lines 56-111)

The Python function builds the filled dict by successive insertion from
the three loops. When the classification partitions the template — which
is what `classify` produces, and what every call site supplies — no key
is written twice, so concatenating the three association-list fragments
gives the same mapping. -/

/-- Loops ① and ③ of `fill_one_sample` perform the same operation: copy
the value of every listed key that is present in the sample, in list
order. -/
def copyPresent {α : Type} (sample : Dict α) (ks : List String) : Dict α :=
  ks.filterMap (fun k => (dictGet? sample k).map (fun v => (k, v)))

/-- Loop ① error side: one missing-field message per absent required key,
in list order. The message is compose.py's f-string (Chinese for
"missing required field"). -/
def missingFieldMsg (k : String) : String := "缺少必填字段 " ++ k

/-- Missing-field messages of loop ①. -/
def missingErrors {α : Type} (sample : Dict α) (required : List String) : List String :=
  (required.filter (fun k => !(dictHas sample k))).map missingFieldMsg

/-- Loop ②: every defaulted key is written, with the sample value when
present and the default otherwise (Python sample.get(k, d)). -/
def fillOptDef {α : Type} (sample : Dict α) (opt_def : Dict α) : Dict α :=
  opt_def.map (fun p => (p.1, (dictGet? sample p.1).getD p.2))

/-- Python `", ".join(l)`, `"\n".join(l)` and so on: str.join semantics. -/
def pyJoin (sep : String) : List String → String
  | [] => ""
  | x :: xs => xs.foldl (fun acc y => acc ++ sep ++ y) x

/-- Step ④: keys of the sample that are not template keys. Python
computes set(sample) - template_keys; a set's iteration order is
unspecified, the model uses first-occurrence order of the sample. -/
def extraKeys {α : Type} (sample : Dict α) (template_keys : List String) : List String :=
  (dictKeys sample).dedup.filter (fun k => !(template_keys.contains k))

/-- The single combined extra-fields message of step ④ (Chinese for
"fields outside the template exist"). -/
def extraFieldsMsg (ks : List String) : String :=
  "存在模板以外字段: " ++ pyJoin ", " ks

/-- Step ④ error side: one combined message when any extra key exists. -/
def extraErrors {α : Type} (sample : Dict α) (template_keys : List String) : List String :=
  let extra := extraKeys sample template_keys
  if extra.isEmpty then [] else [extraFieldsMsg extra]

/-- compose.py `fill_one_sample`: returns (filled dict, error list);
total — errors are accumulated, nothing is raised. -/
def fill_one_sample {α : Type} (sample : Dict α) (required : List String)
    (opt_def : Dict α) (opt_nodef : List String) (template_keys : List String) :
    Dict α × List String :=
  (copyPresent sample required ++ fillOptDef sample opt_def ++ copyPresent sample opt_nodef,
   missingErrors sample required ++ extraErrors sample template_keys)

/-- Error block for one sample (compose.py line 108): the 1-based sample
index header (Chinese for "sample") followed by the newline-joined
per-sample errors. -/
def sampleBlock (idx : Nat) (errs : List String) : String :=
  "样本 #" ++ toString idx ++ ":\n" ++ pyJoin "\n" errs

/-- compose.py `build_inputs`, after the template has been read from disk
(file I/O is an external collaborator; the template is a parameter here):
classify once, fill every sample in order, aggregate error blocks with
blank-line separators. -/
def build_inputs (tpl : Dict String) (samples : List (Dict Value)) :
    List (Dict Value) × String :=
  let c := classify tpl
  let tkeys := dictKeys tpl
  let pairs := samples.map (fun s => fill_one_sample s c.1 c.2.1 c.2.2 tkeys)
  let blocks := pairs.enum.filterMap (fun p =>
    if p.2.2.isEmpty then none else some (sampleBlock (p.1 + 1) p.2.2))
  (pairs.map (fun p => p.1), pyJoin "\n\n" blocks)

/-! ### `WorkflowInputParams._normalize_params`
(bioos_mcp_server.py lines 249-270) -/

/-- Shape of the raw params value before validation: a single dict, a
list of dicts, or anything else. -/
inductive PyParams where
  | dict (d : Dict Value)
  | list (l : List (Dict Value))
  | other
deriving Repr

/-- The validator `_normalize_params`: a dict is replicated
sample_count times; a list is accepted when its length equals
sample_count, replicated when it has exactly one entry and
sample_count exceeds one, and rejected otherwise with a message stating
both numbers; any other shape is rejected as a type error. -/
def normalize_params (sample_count : Nat) (raw : PyParams) :
    Except String (List (Dict Value)) :=
  match raw with
  | .dict d => .ok (List.replicate sample_count d)
  | .list l =>
    if l.length = sample_count then .ok l
    else if l.length = 1 ∧ 1 < sample_count then .ok (List.replicate sample_count l).flatten
    else .error ("样本数量不一致：sample_count=" ++ toString sample_count ++
                 "，但 params 中有 " ++ toString l.length ++ " 条")
  | .other => .error "params 必须是 dict 或 list[dict]"

/-! ### Rerank pipeline
(rerank_client.py and bioos_mcp_server.py search_dockstore) -/

/-- Backend search hit, reduced to what the rerank pipeline reads: the
backend relevance score (ES _score, a float, kept exact). -/
structure Hit where
  score : ℚ
deriving DecidableEq, Repr

instance : Inhabited Hit := ⟨⟨0⟩⟩

/-- One element of the rerank service response: {index, score}. -/
structure ScoredItem where
  index : Nat
  score : ℚ
deriving DecidableEq, Repr

/-- One element of RerankClient.rerank's result: {index, score, text}. -/
structure RankedItem where
  index : Nat
  score : ℚ
  text : String
deriving DecidableEq, Repr

/-- The comparison realized by Python sorted(key=score, reverse=True):
a may stay before b exactly when b's score does not exceed a's. Python's
sort is stable, and with this relation Mathlib's insertion sort keeps
equal-score elements in their original list order, which is the same
stability guarantee. -/
def rerankRel (a b : RankedItem) : Prop := b.score ≤ a.score

instance : DecidableRel rerankRel :=
  fun a b => inferInstanceAs (Decidable (b.score ≤ a.score))

instance : IsTotal RankedItem rerankRel :=
  ⟨fun a b => le_total b.score a.score⟩

instance : IsTrans RankedItem rerankRel :=
  ⟨fun _ _ _ h1 h2 => le_trans h2 h1⟩

/-- RerankClient.rerank, success path (rerank_client.py lines 15-20):
build the {index, score, text} records in response order, sort them
stably by descending score, and truncate when top_n is a truthy value
(Python: ranked[:top_n] if top_n else ranked, so both None and 0 mean no
truncation). Out-of-range indices would raise IndexError in Python; the
model totalizes the text lookup with an empty default, and the theorems
about the success path assume in-range indices. -/
def rerank_success (texts : List String) (resp : List ScoredItem)
    (top_n : Option Nat) : List RankedItem :=
  let ranked := List.insertionSort rerankRel
    (resp.map (fun it => ⟨it.index, it.score, texts.getD it.index ""⟩))
  match top_n with
  | some (n + 1) => ranked.take (n + 1)
  | _ => ranked

/-- The fallback of search_dockstore (bioos_mcp_server.py line 857), used
when RerankClient.rerank raised RuntimeError (request failure, timeout or
a bad JSON body): the first top_n hits in backend order, with the
backend score copied through. -/
def fallback_rerank (hits : List Hit) (top_n : Nat) : List ScoredItem :=
  (hits.take top_n).enum.map (fun p => ⟨p.1, p.2.score⟩)

/-- The rerank step of search_dockstore: the service result on success,
the deterministic fallback on failure. -/
def rerank_step (hits : List Hit) (top_n : Nat)
    (outcome : Except String (List ScoredItem)) : List ScoredItem :=
  match outcome with
  | .ok r => r
  | .error _ => fallback_rerank hits top_n

/-! ### Query builder (dockstore_search.py `_build_search_body` and the
condition loop of search_dockstore) -/

/-- One entry of the queries list built by search_dockstore from a
condition triple: singleton terms and fields, operator normalized to
AND when unrecognized. -/
structure EsQuery where
  terms : List String
  fields : List String
  operator : String
deriving DecidableEq, Repr

/-- search_dockstore's condition loop, one triple (field, operator,
term) to one query record. -/
def query_of_condition (cond : String × String × String) : EsQuery :=
  ⟨[cond.2.2], [cond.1],
   if cond.2.1 = "AND" ∨ cond.2.1 = "OR" then cond.2.1 else "AND"⟩

/-- One boolean clause of the search body: a match clause or a wildcard
clause, as emitted by `_build_search_body`. -/
inductive EsClause where
  | match_ (field : String) (query : String) (boost : Nat)
  | wildcard (field : String) (value : String) (case_insensitive : Bool) (boost : Nat)
deriving DecidableEq, Repr

/-- The query part of the search body: the constant must-clause on the
workflows index, the should-list of condition clauses, and
minimum_should_match. The static envelope (size, source filter, sort,
highlight) carries no decision logic and is reduced to the size field. -/
structure SearchBody where
  size : Nat
  must_index : String
  should : List EsClause
  minimum_should_match : Nat
deriving DecidableEq, Repr

/-- Clause emitted for one (term, field) pair (dockstore_search.py lines
153-177): wildcard query_type gives a case-insensitive wildcard clause
with the term wrapped in asterisks, boost 14 on the two path fields and
2 elsewhere; any other query_type gives a match clause with boost 2. -/
def clause_of (query_type : String) (pair : String × String) : EsClause :=
  if query_type = "wildcard" then
    .wildcard pair.2 ("*" ++ pair.1 ++ "*") true
      (if pair.2 = "full_workflow_path" ∨ pair.2 = "tool_path" then 14 else 2)
  else
    .match_ pair.2 pair.1 2

/-- `_build_search_body`: for every query, zip its terms with its fields
and emit one clause per pair into the should list;
minimum_should_match is 1. -/
def build_search_body (queries : List EsQuery) (query_type : String) : SearchBody :=
  ⟨201, "workflows",
   queries.flatMap (fun q => (q.terms.zip q.fields).map (clause_of query_type)),
   1⟩

/-- The full condition-to-body pipeline of search_dockstore. -/
def search_body_of_conditions (conds : List (String × String × String))
    (query_type : String) : SearchBody :=
  build_search_body (conds.map query_of_condition) query_type

/-! ### The search_dockstore tail (bioos_mcp_server.py lines 834-872)

After hits are retrieved and the rerank step completes, the tool calls
client.format_results(top_results, output_full=False). The def of
format_results (dockstore_search.py line 496) names its parameters
(self), results and full_output, so CPython rejects the keyword
output_full with a TypeError before the function body runs; the tool's
outer except-handler turns any exception into an error dictionary. -/

/-- Parameter names accepted by DockstoreSearch.format_results. -/
def format_results_params : List String := ["self", "results", "full_output"]

/-- The keyword used at the call site in search_dockstore. -/
def search_call_keyword : String := "output_full"

/-- CPython keyword-argument binding for the format_results call: an
unknown keyword raises TypeError before the body runs. The body itself
is not modelled: with the keyword actually used at the call site it is
unreachable, which is what claim C9 is about. -/
def call_format_results : Except String String :=
  if format_results_params.contains search_call_keyword then .ok ""
  else .error ("format_results() got an unexpected keyword argument " ++
               search_call_keyword)

/-- Result of the search_dockstore tool: the results mapping or an error
dictionary. -/
inductive ToolResult where
  | results (payload : List (String × String))
  | error (msg : String)
deriving DecidableEq, Repr

/-- search_dockstore after the backend search returned: empty hits are
reported as not-found; otherwise the rerank step (or its fallback) picks
the top hits and the formatting call decides the outcome. The markdown
link extraction of the success branch is unreachable (the keyword never
binds) and is left as an empty mapping. -/
def search_dockstore_tail (hits : List Hit) (top_n : Nat)
    (outcome : Except String (List ScoredItem)) : ToolResult :=
  if hits.isEmpty then .error "未找到匹配的工作流"
  else
    let reranked := rerank_step hits top_n outcome
    let _top_hits := reranked.map (fun it => hits.getD it.index default)
    match call_format_results with
    | .ok _ => .results []
    | .error e => .error ("搜索失败: " ++ e)

/-! ## Helper lemmas -/

theorem data_append (s t : String) : (s ++ t).data = s.data ++ t.data := by
  cases s; cases t; rfl

theorem string_data_inj {s t : String} (h : s.data = t.data) : s = t := by
  cases s; cases t; exact congrArg String.mk h

theorem string_append_right_inj {p a b : String} (h : p ++ a = p ++ b) : a = b := by
  have h2 := congrArg String.data h
  rw [data_append, data_append] at h2
  exact string_data_inj (List.append_cancel_left h2)

theorem missingFieldMsg_inj {k k' : String}
    (h : missingFieldMsg k = missingFieldMsg k') : k = k' :=
  string_append_right_inj h

theorem missingFieldMsg_injective : Function.Injective missingFieldMsg :=
  fun _ _ h => missingFieldMsg_inj h

theorem missingFieldMsg_ne_extraFieldsMsg (k : String) (ks : List String) :
    missingFieldMsg k ≠ extraFieldsMsg ks := by
  intro h
  have h2 := congrArg String.data h
  rw [missingFieldMsg, extraFieldsMsg, data_append, data_append] at h2
  have e1 : ("缺少必填字段 ").data = '缺' :: ("少必填字段 ").data := rfl
  have e2 : ("存在模板以外字段: ").data = '存' :: ("在模板以外字段: ").data := rfl
  rw [e1, e2, List.cons_append, List.cons_append] at h2
  exact absurd (List.head_eq_of_cons_eq h2) (by decide)

theorem string_ne_empty_of_data_ne_nil {s : String} (h : s.data ≠ []) : s ≠ "" := by
  intro he
  exact h (by rw [he])

theorem length_le_pyJoin_foldl (sep : String) (xs : List String) (acc : String) :
    acc.length ≤ (xs.foldl (fun a y => a ++ sep ++ y) acc).length := by
  induction xs generalizing acc with
  | nil => exact le_rfl
  | cons x xs ih =>
    refine le_trans ?_ (ih (acc ++ sep ++ x))
    rw [String.length_append, String.length_append]
    omega

theorem pyJoin_ne_empty (sep : String) {x : String} (xs : List String)
    (hx : x ≠ "") : pyJoin sep (x :: xs) ≠ "" := by
  intro h
  have h1 : x.length ≤ (pyJoin sep (x :: xs)).length :=
    length_le_pyJoin_foldl sep xs x
  rw [h] at h1
  have h2 : (("" : String)).length = 0 := rfl
  rw [h2, Nat.le_zero] at h1
  apply hx
  apply string_data_inj
  have : x.data.length = 0 := h1
  simpa using List.length_eq_zero.mp this

theorem pyJoin_eq_empty_iff (sep : String) (l : List String)
    (hl : ∀ b ∈ l, b ≠ "") : pyJoin sep l = "" ↔ l = [] := by
  constructor
  · intro h
    cases l with
    | nil => rfl
    | cons x xs => exact absurd h (pyJoin_ne_empty sep xs (hl x (by simp)))
  · intro h; rw [h]; rfl

/-! Dict lookup lemmas. -/

theorem dictGet?_append {α : Type} (a b : Dict α) (k : String) :
    dictGet? (a ++ b) k = ((dictGet? a k).or (dictGet? b k)) := by
  rw [dictGet?, List.find?_append]
  cases h : a.find? (fun p => p.1 == k) with
  | none => simp [dictGet?, h]
  | some v => simp [dictGet?, h]

theorem dictHas_iff_mem_dictKeys {α : Type} (d : Dict α) (k : String) :
    dictHas d k = true ↔ k ∈ dictKeys d := by
  have hmap : ∀ (o : Option (String × α)),
      (o.map (fun p => p.2)).isSome = o.isSome := by
    intro o; cases o <;> rfl
  rw [dictHas, dictGet?, hmap, List.find?_isSome]
  simp [dictKeys, List.mem_map, beq_iff_eq]

theorem dictGet?_eq_none_iff {α : Type} (d : Dict α) (k : String) :
    dictGet? d k = none ↔ k ∉ dictKeys d := by
  rw [← dictHas_iff_mem_dictKeys, dictHas]
  cases h : dictGet? d k <;> simp [h]

theorem dictGet?_isSome_iff {α : Type} (d : Dict α) (k : String) :
    (dictGet? d k).isSome = true ↔ k ∈ dictKeys d :=
  dictHas_iff_mem_dictKeys d k

theorem dictGet?_cons {α : Type} (a : String) (v : α) (d : Dict α) (k : String) :
    dictGet? ((a, v) :: d) k = if a = k then some v else dictGet? d k := by
  by_cases h : a = k
  · subst h
    rw [dictGet?, List.find?_cons_of_pos _ (by simp)]
    simp
  · rw [dictGet?, List.find?_cons_of_neg _ (by simp [h]), if_neg h]
    rfl

theorem nodupKeys_entry_eq {α : Type} {d : Dict α} (hnd : (dictKeys d).Nodup)
    {k : String} {v w : α} (hv : (k, v) ∈ d) (hw : (k, w) ∈ d) : v = w := by
  induction d with
  | nil => cases hv
  | cons p d ih =>
    rw [dictKeys, List.map_cons, List.nodup_cons] at hnd
    rcases List.mem_cons.mp hv with h1 | h1 <;>
      rcases List.mem_cons.mp hw with h2 | h2
    · rw [← h1] at h2; exact (Prod.mk.injEq _ _ _ _ ▸ congrArg id h2).2.symm ▸ rfl
    · exact absurd (h1 ▸ (List.mem_map.mpr ⟨(k, w), h2, rfl⟩) :
        p.1 ∈ dictKeys d) (by rw [← h1] at hnd ⊢; exact hnd.1)
    · exact absurd (h2 ▸ (List.mem_map.mpr ⟨(k, v), h1, rfl⟩) :
        p.1 ∈ dictKeys d) (by rw [← h2] at hnd ⊢; exact hnd.1)
    · exact ih hnd.2 h1 h2

theorem mem_keys_copyPresent {α : Type} (s : Dict α) (ks : List String) (k : String) :
    k ∈ dictKeys (copyPresent s ks) ↔ k ∈ ks ∧ (dictGet? s k).isSome = true := by
  constructor
  · intro h
    obtain ⟨p, hp, hpk⟩ := List.mem_map.mp h
    obtain ⟨a, ha, hav⟩ := List.mem_filterMap.mp hp
    obtain ⟨v, hv, hpv⟩ := Option.map_eq_some'.mp hav
    rw [← hpv] at hpk
    simp only at hpk
    subst hpk
    exact ⟨ha, by rw [hv]; rfl⟩
  · rintro ⟨hk, hs⟩
    obtain ⟨v, hv⟩ := Option.isSome_iff_exists.mp hs
    exact List.mem_map.mpr ⟨(k, v),
      List.mem_filterMap.mpr ⟨k, hk, by rw [hv]; rfl⟩, rfl⟩

theorem copyPresent_get_not_mem {α : Type} (s : Dict α) {ks : List String}
    {k : String} (hk : k ∉ ks) : dictGet? (copyPresent s ks) k = none := by
  rw [dictGet?_eq_none_iff, mem_keys_copyPresent]
  exact fun h => hk h.1

theorem copyPresent_get_mem {α : Type} (s : Dict α) {ks : List String}
    {k : String} (hk : k ∈ ks) :
    dictGet? (copyPresent s ks) k = dictGet? s k := by
  induction ks with
  | nil => cases hk
  | cons a ks ih =>
    rw [copyPresent, List.filterMap_cons]
    cases ha : dictGet? s a with
    | some v =>
      rw [Option.map_some']
      rw [show (List.filterMap (fun k => (dictGet? s k).map fun v => (k, v)) ks) =
        copyPresent s ks from rfl]
      rw [dictGet?_cons]
      by_cases hak : a = k
      · rw [if_pos hak, ← hak, ha]
      · rw [if_neg hak]
        have hk' : k ∈ ks := by
          rcases List.mem_cons.mp hk with h | h
          · exact absurd h.symm hak
          · exact h
        exact ih hk'
    | none =>
      rw [Option.map_none']
      rw [show (List.filterMap (fun k => (dictGet? s k).map fun v => (k, v)) ks) =
        copyPresent s ks from rfl]
      by_cases hak : a = k
      · by_cases hks : k ∈ ks
        · rw [ih hks, ← hak, ha]
        · rw [copyPresent_get_not_mem s hks, ← hak, ha]
      · have hk' : k ∈ ks := by
          rcases List.mem_cons.mp hk with h | h
          · exact absurd h.symm hak
          · exact h
        exact ih hk'

theorem dictKeys_fillOptDef {α : Type} (s : Dict α) (odef : Dict α) :
    dictKeys (fillOptDef s odef) = dictKeys odef := by
  rw [dictKeys, fillOptDef, List.map_map, dictKeys]
  rfl

theorem fillOptDef_get_not_mem {α : Type} (s : Dict α) {odef : Dict α}
    {k : String} (hk : k ∉ dictKeys odef) :
    dictGet? (fillOptDef s odef) k = none := by
  rw [dictGet?_eq_none_iff, dictKeys_fillOptDef]
  exact hk

theorem fillOptDef_get_mem {α : Type} (s : Dict α) {odef : Dict α}
    (hnd : (dictKeys odef).Nodup) {k : String} {d : α} (hm : (k, d) ∈ odef) :
    dictGet? (fillOptDef s odef) k = some ((dictGet? s k).getD d) := by
  induction odef with
  | nil => cases hm
  | cons p odef ih =>
    rw [dictKeys, List.map_cons, List.nodup_cons] at hnd
    rw [fillOptDef, List.map_cons]
    rw [show (List.map (fun p => (p.1, (dictGet? s p.1).getD p.2)) odef) =
      fillOptDef s odef from rfl]
    rcases List.mem_cons.mp hm with h | h
    · rw [← h]
      rw [dictGet?_cons, if_pos rfl]
    · have hpk : p.1 ≠ k := by
        intro he
        exact hnd.1 (he ▸ List.mem_map.mpr ⟨(k, d), h, rfl⟩)
      rw [dictGet?_cons, if_neg hpk]
      exact ih hnd.2 h

/-! Classify lemmas. -/

theorem mem_classify_req {tpl : Dict String} {k : String} :
    k ∈ (classify tpl).1 ↔ ∃ v, (k, v) ∈ tpl ∧ parse_spec v = .required := by
  constructor
  · intro h
    obtain ⟨p, hp, hpk⟩ := List.mem_filterMap.mp h
    revert hpk
    cases hps : parse_spec p.2 with
    | required =>
      intro hpk
      simp only [Option.some.injEq] at hpk
      subst hpk
      exact ⟨p.2, by simpa using hp, hps⟩
    | opt_def v => intro hpk; cases hpk
    | opt_nodef => intro hpk; cases hpk
  · rintro ⟨v, hv, hps⟩
    exact List.mem_filterMap.mpr ⟨(k, v), hv, by rw [hps]⟩

theorem mem_classify_odef {tpl : Dict String} {k : String} {d : Value} :
    (k, d) ∈ (classify tpl).2.1 ↔
      ∃ v, (k, v) ∈ tpl ∧ parse_spec v = .opt_def d := by
  constructor
  · intro h
    obtain ⟨p, hp, hpk⟩ := List.mem_filterMap.mp h
    revert hpk
    cases hps : parse_spec p.2 with
    | required => intro hpk; cases hpk
    | opt_def v =>
      intro hpk
      simp only [Option.some.injEq, Prod.mk.injEq] at hpk
      refine ⟨p.2, ?_, ?_⟩
      · rw [← hpk.1]; simpa using hp
      · rw [hps, hpk.2]
    | opt_nodef => intro hpk; cases hpk
  · rintro ⟨v, hv, hps⟩
    exact List.mem_filterMap.mpr ⟨(k, v), hv, by rw [hps]⟩

theorem mem_classify_onodef {tpl : Dict String} {k : String} :
    k ∈ (classify tpl).2.2 ↔ ∃ v, (k, v) ∈ tpl ∧ parse_spec v = .opt_nodef := by
  constructor
  · intro h
    obtain ⟨p, hp, hpk⟩ := List.mem_filterMap.mp h
    revert hpk
    cases hps : parse_spec p.2 with
    | required => intro hpk; cases hpk
    | opt_def v => intro hpk; cases hpk
    | opt_nodef =>
      intro hpk
      simp only [Option.some.injEq] at hpk
      subst hpk
      exact ⟨p.2, by simpa using hp, hps⟩
  · rintro ⟨v, hv, hps⟩
    exact List.mem_filterMap.mpr ⟨(k, v), hv, by rw [hps]⟩

theorem mem_keys_classify_odef {tpl : Dict String} {k : String} :
    k ∈ dictKeys (classify tpl).2.1 ↔
      ∃ v, (k, v) ∈ tpl ∧ ∃ d, parse_spec v = .opt_def d := by
  constructor
  · intro h
    obtain ⟨p, hp, hpk⟩ := List.mem_map.mp h
    subst hpk
    obtain ⟨v, hv, hps⟩ := mem_classify_odef.mp
      (show (p.1, p.2) ∈ (classify tpl).2.1 by simpa using hp)
    exact ⟨v, hv, p.2, hps⟩
  · rintro ⟨v, hv, d, hps⟩
    exact List.mem_map.mpr ⟨(k, d), mem_classify_odef.mpr ⟨v, hv, hps⟩, rfl⟩

theorem filterMap_fst_sublist {β : Type} (f : String × β → Option String)
    (hf : ∀ p x, f p = some x → x = p.1) (l : List (String × β)) :
    List.Sublist (l.filterMap f) (dictKeys l) := by
  induction l with
  | nil => exact List.Sublist.refl _
  | cons p l ih =>
    rw [List.filterMap_cons, dictKeys, List.map_cons]
    cases hfp : f p with
    | none => exact List.Sublist.cons _ ih
    | some x => rw [hf p x hfp]; exact List.Sublist.cons₂ _ ih

theorem classify_req_sublist (tpl : Dict String) :
    List.Sublist (classify tpl).1 (dictKeys tpl) := by
  refine filterMap_fst_sublist _ ?_ tpl
  intro p x h
  revert h
  cases parse_spec p.2 with
  | required => intro h; cases h; rfl
  | opt_def v => intro h; cases h
  | opt_nodef => intro h; cases h

theorem classify_onodef_sublist (tpl : Dict String) :
    List.Sublist (classify tpl).2.2 (dictKeys tpl) := by
  refine filterMap_fst_sublist _ ?_ tpl
  intro p x h
  revert h
  cases parse_spec p.2 with
  | required => intro h; cases h
  | opt_def v => intro h; cases h
  | opt_nodef => intro h; cases h; rfl

theorem classify_odef_keys_sublist (tpl : Dict String) :
    List.Sublist (dictKeys (classify tpl).2.1) (dictKeys tpl) := by
  rw [show dictKeys (classify tpl).2.1 =
    (classify tpl).2.1.map (fun p => p.1) from rfl]
  rw [show (classify tpl).2.1 = tpl.filterMap (fun p =>
    match parse_spec p.2 with
    | .opt_def v => some (p.1, v)
    | _ => none) from rfl]
  rw [List.map_filterMap]
  refine filterMap_fst_sublist _ ?_ tpl
  intro p x h
  revert h
  cases parse_spec p.2 with
  | required => intro h; cases h
  | opt_def v => intro h; cases h; rfl
  | opt_nodef => intro h; cases h

theorem classify_req_nodup {tpl : Dict String} (hnd : (dictKeys tpl).Nodup) :
    (classify tpl).1.Nodup :=
  hnd.sublist (classify_req_sublist tpl)

theorem classify_odef_keys_nodup {tpl : Dict String}
    (hnd : (dictKeys tpl).Nodup) : (dictKeys (classify tpl).2.1).Nodup :=
  hnd.sublist (classify_odef_keys_sublist tpl)

theorem classify_onodef_nodup {tpl : Dict String}
    (hnd : (dictKeys tpl).Nodup) : (classify tpl).2.2.Nodup :=
  hnd.sublist (classify_onodef_sublist tpl)

theorem classify_req_not_odef {tpl : Dict String}
    (hnd : (dictKeys tpl).Nodup) {k : String} (h : k ∈ (classify tpl).1) :
    k ∉ dictKeys (classify tpl).2.1 := by
  intro h2
  obtain ⟨v, hv, hps⟩ := mem_classify_req.mp h
  obtain ⟨v', hv', d, hps'⟩ := mem_keys_classify_odef.mp h2
  have : v = v' := nodupKeys_entry_eq hnd hv hv'
  rw [this, hps'] at hps
  cases hps

theorem classify_req_not_onodef {tpl : Dict String}
    (hnd : (dictKeys tpl).Nodup) {k : String} (h : k ∈ (classify tpl).1) :
    k ∉ (classify tpl).2.2 := by
  intro h2
  obtain ⟨v, hv, hps⟩ := mem_classify_req.mp h
  obtain ⟨v', hv', hps'⟩ := mem_classify_onodef.mp h2
  have : v = v' := nodupKeys_entry_eq hnd hv hv'
  rw [this, hps'] at hps
  cases hps

theorem classify_odef_not_onodef {tpl : Dict String}
    (hnd : (dictKeys tpl).Nodup) {k : String}
    (h : k ∈ dictKeys (classify tpl).2.1) : k ∉ (classify tpl).2.2 := by
  intro h2
  obtain ⟨v, hv, d, hps⟩ := mem_keys_classify_odef.mp h
  obtain ⟨v', hv', hps'⟩ := mem_classify_onodef.mp h2
  have : v = v' := nodupKeys_entry_eq hnd hv hv'
  rw [this, hps'] at hps
  cases hps

theorem classify_union {tpl : Dict String} {k : String} :
    k ∈ dictKeys tpl ↔
      k ∈ (classify tpl).1 ∨ k ∈ dictKeys (classify tpl).2.1 ∨
      k ∈ (classify tpl).2.2 := by
  constructor
  · intro h
    obtain ⟨p, hp, hpk⟩ := List.mem_map.mp h
    subst hpk
    have hp' : (p.1, p.2) ∈ tpl := by simpa using hp
    cases hps : parse_spec p.2 with
    | required => exact Or.inl (mem_classify_req.mpr ⟨p.2, hp', hps⟩)
    | opt_def v =>
      exact Or.inr (Or.inl (mem_keys_classify_odef.mpr ⟨p.2, hp', v, hps⟩))
    | opt_nodef => exact Or.inr (Or.inr (mem_classify_onodef.mpr ⟨p.2, hp', hps⟩))
  · intro h
    rcases h with h | h | h
    · exact (classify_req_sublist tpl).subset h
    · exact (classify_odef_keys_sublist tpl).subset h
    · exact (classify_onodef_sublist tpl).subset h

/-! Lemmas about `fill_one_sample` under the classification produced by
`classify` on a template with unique keys. -/

theorem fill_filled_eq (sample : Dict Value) (req : List String)
    (odef : Dict Value) (onodef : List String) (tkeys : List String) :
    (fill_one_sample sample req odef onodef tkeys).1 =
      copyPresent sample req ++ fillOptDef sample odef ++
        copyPresent sample onodef := rfl

theorem fill_errors_eq (sample : Dict Value) (req : List String)
    (odef : Dict Value) (onodef : List String) (tkeys : List String) :
    (fill_one_sample sample req odef onodef tkeys).2 =
      missingErrors sample req ++ extraErrors sample tkeys := rfl

theorem fill_get_req_present {tpl : Dict String} (sample : Dict Value)
    {k : String} (hk : k ∈ (classify tpl).1)
    (hs : (dictGet? sample k).isSome = true) :
    dictGet? (fill_one_sample sample (classify tpl).1 (classify tpl).2.1
      (classify tpl).2.2 (dictKeys tpl)).1 k = dictGet? sample k := by
  rw [fill_filled_eq, dictGet?_append, dictGet?_append,
    copyPresent_get_mem sample hk]
  obtain ⟨v, hv⟩ := Option.isSome_iff_exists.mp hs
  rw [hv]
  rfl

theorem fill_get_req_missing {tpl : Dict String}
    (hnd : (dictKeys tpl).Nodup) (sample : Dict Value)
    {k : String} (hk : k ∈ (classify tpl).1)
    (hs : dictGet? sample k = none) :
    dictGet? (fill_one_sample sample (classify tpl).1 (classify tpl).2.1
      (classify tpl).2.2 (dictKeys tpl)).1 k = none := by
  rw [fill_filled_eq, dictGet?_append, dictGet?_append,
    copyPresent_get_mem sample hk, hs,
    fillOptDef_get_not_mem sample (classify_req_not_odef hnd hk)]
  by_cases ho : k ∈ (classify tpl).2.2
  · rw [copyPresent_get_mem sample ho, hs]; rfl
  · rw [copyPresent_get_not_mem sample ho]; rfl

theorem fill_get_odef {tpl : Dict String}
    (hnd : (dictKeys tpl).Nodup) (sample : Dict Value)
    {k : String} {d : Value} (hk : (k, d) ∈ (classify tpl).2.1) :
    dictGet? (fill_one_sample sample (classify tpl).1 (classify tpl).2.1
      (classify tpl).2.2 (dictKeys tpl)).1 k =
      some ((dictGet? sample k).getD d) := by
  have hkk : k ∈ dictKeys (classify tpl).2.1 :=
    List.mem_map.mpr ⟨(k, d), hk, rfl⟩
  have hreq : k ∉ (classify tpl).1 := by
    intro hr
    exact classify_req_not_odef hnd hr hkk
  rw [fill_filled_eq, dictGet?_append, dictGet?_append,
    copyPresent_get_not_mem sample hreq,
    fillOptDef_get_mem sample (classify_odef_keys_nodup hnd) hk]
  rfl

theorem fill_get_onodef {tpl : Dict String}
    (hnd : (dictKeys tpl).Nodup) (sample : Dict Value)
    {k : String} (hk : k ∈ (classify tpl).2.2) :
    dictGet? (fill_one_sample sample (classify tpl).1 (classify tpl).2.1
      (classify tpl).2.2 (dictKeys tpl)).1 k = dictGet? sample k := by
  have hreq : k ∉ (classify tpl).1 := by
    intro hr
    exact classify_req_not_onodef hnd hr hk
  have hod : k ∉ dictKeys (classify tpl).2.1 := by
    intro ho
    exact classify_odef_not_onodef hnd ho hk
  rw [fill_filled_eq, dictGet?_append, dictGet?_append,
    copyPresent_get_not_mem sample hreq, fillOptDef_get_not_mem sample hod,
    copyPresent_get_mem sample hk]
  rfl

theorem missingErrors_count_eq_one {sample : Dict Value} {req : List String}
    (hnd : req.Nodup) {k : String} (hk : k ∈ req)
    (hs : dictGet? sample k = none) :
    (missingErrors sample req).count (missingFieldMsg k) = 1 := by
  rw [missingErrors, List.count_map_of_injective _ _ missingFieldMsg_injective]
  refine List.count_eq_one_of_mem (hnd.filter _) ?_
  rw [List.mem_filter]
  exact ⟨hk, by rw [dictHas, hs]; rfl⟩

theorem extraErrors_count_missing_eq_zero (sample : Dict Value)
    (tkeys : List String) (k : String) :
    (extraErrors sample tkeys).count (missingFieldMsg k) = 0 := by
  rw [extraErrors]
  by_cases h : (extraKeys sample tkeys).isEmpty
  · rw [if_pos h]; rfl
  · rw [if_neg h]
    rw [List.count_singleton']
    rw [if_neg (by
      intro he
      exact missingFieldMsg_ne_extraFieldsMsg k (extraKeys sample tkeys) he.symm)]

theorem fill_keys_subset {tpl : Dict String} (sample : Dict Value)
    {k : String}
    (hk : k ∈ dictKeys (fill_one_sample sample (classify tpl).1
      (classify tpl).2.1 (classify tpl).2.2 (dictKeys tpl)).1) :
    k ∈ dictKeys tpl := by
  rw [fill_filled_eq, dictKeys, List.map_append, List.map_append] at hk
  rcases List.mem_append.mp hk with h | h
  · rcases List.mem_append.mp h with h1 | h1
    · have := (mem_keys_copyPresent sample _ k).mp h1
      exact (classify_req_sublist tpl).subset this.1
    · have : k ∈ dictKeys (fillOptDef sample (classify tpl).2.1) := h1
      rw [dictKeys_fillOptDef] at this
      exact (classify_odef_keys_sublist tpl).subset this
  · have := (mem_keys_copyPresent sample _ k).mp h
    exact (classify_onodef_sublist tpl).subset this.1

theorem mem_extraKeys_iff {α : Type} (sample : Dict α) (tkeys : List String)
    (k : String) :
    k ∈ extraKeys sample tkeys ↔ (k ∈ dictKeys sample ∧ k ∉ tkeys) := by
  rw [extraKeys, List.mem_filter, List.mem_dedup]
  constructor
  · rintro ⟨h1, h2⟩
    refine ⟨h1, fun hm => ?_⟩
    rw [Bool.not_eq_true', ← Bool.not_eq_true] at h2
    exact h2 (List.elem_eq_true_of_mem hm)
  · rintro ⟨h1, h2⟩
    refine ⟨h1, ?_⟩
    rw [Bool.not_eq_true', ← Bool.not_eq_true]
    intro hc
    exact h2 (List.mem_of_elem_eq_true hc)

/-! ## Claim theorems -/

/-- Claim C1: for every sample and every classification derived from a
template with unique keys, the filler copies sample[k] for each required
key k present in the sample; for each required key absent from the
sample it records exactly one error naming that key and omits the key
from the filled map; every defaulted key d is present in the filled map
with value sample.get(d, default); each optional-without-default key is
present in the filled map iff present in the sample (with the sample
value); and the partial filled map is always returned together with the
accumulated errors — the function is total, nothing is raised. -/
theorem c1_fill_one_sample_semantics (tpl : Dict String) (sample : Dict Value)
    (hnd : (dictKeys tpl).Nodup) :
    (∀ k, k ∈ (classify tpl).1 → (dictGet? sample k).isSome = true →
      dictGet? (fill_one_sample sample (classify tpl).1 (classify tpl).2.1
        (classify tpl).2.2 (dictKeys tpl)).1 k = dictGet? sample k) ∧
    (∀ k, k ∈ (classify tpl).1 → dictGet? sample k = none →
      (fill_one_sample sample (classify tpl).1 (classify tpl).2.1
        (classify tpl).2.2 (dictKeys tpl)).2.count (missingFieldMsg k) = 1 ∧
      dictGet? (fill_one_sample sample (classify tpl).1 (classify tpl).2.1
        (classify tpl).2.2 (dictKeys tpl)).1 k = none) ∧
    (∀ k d, (k, d) ∈ (classify tpl).2.1 →
      dictGet? (fill_one_sample sample (classify tpl).1 (classify tpl).2.1
        (classify tpl).2.2 (dictKeys tpl)).1 k =
        some ((dictGet? sample k).getD d)) ∧
    (∀ k, k ∈ (classify tpl).2.2 →
      dictGet? (fill_one_sample sample (classify tpl).1 (classify tpl).2.1
        (classify tpl).2.2 (dictKeys tpl)).1 k = dictGet? sample k) := by
  refine ⟨?_, ?_, ?_, ?_⟩
  · intro k hk hs
    exact fill_get_req_present sample hk hs
  · intro k hk hs
    constructor
    · rw [fill_errors_eq, List.count_append,
        missingErrors_count_eq_one (classify_req_nodup hnd) hk hs,
        extraErrors_count_missing_eq_zero]
    · exact fill_get_req_missing hnd sample hk hs
  · intro k d hk
    exact fill_get_odef hnd sample hk
  · intro k hk
    exact fill_get_onodef hnd sample hk

/-- Witness for C1 at the spec's concrete scenario: template with one
required, one defaulted and one optional field; a sample providing only
the required field gets the default filled in. -/
theorem c1_fill_one_sample_semantics_witness :
    dictGet? (fill_one_sample [("sample_id", Value.str "S1")]
      (classify [("sample_id", "String"),
        ("threads", "Int (optional, default = 4)"),
        ("extra_flag", "Boolean (optional)")]).1
      (classify [("sample_id", "String"),
        ("threads", "Int (optional, default = 4)"),
        ("extra_flag", "Boolean (optional)")]).2.1
      (classify [("sample_id", "String"),
        ("threads", "Int (optional, default = 4)"),
        ("extra_flag", "Boolean (optional)")]).2.2
      (dictKeys [("sample_id", "String"),
        ("threads", "Int (optional, default = 4)"),
        ("extra_flag", "Boolean (optional)")])).1 "threads" =
      some (Value.int 4) := by
  have h := c1_fill_one_sample_semantics
    [("sample_id", "String"), ("threads", "Int (optional, default = 4)"),
     ("extra_flag", "Boolean (optional)")]
    [("sample_id", Value.str "S1")] (by decide)
  have h2 := h.2.2.1 "threads" (Value.int 4) (by decide)
  rw [h2]
  decide

/-- Claim C8: a sample with keys outside the template produces exactly
one extra-field error, a single combined message naming all such keys,
while valid fields are still filled by the normal rules; with no extra
keys no extra-field error is produced. -/
theorem c8_extra_field_error (tpl : Dict String) (sample : Dict Value)
    (hnd : (dictKeys tpl).Nodup) :
    (∀ k, k ∈ extraKeys sample (dictKeys tpl) ↔
      (k ∈ dictKeys sample ∧ k ∉ dictKeys tpl)) ∧
    (extraKeys sample (dictKeys tpl) ≠ [] →
      (fill_one_sample sample (classify tpl).1 (classify tpl).2.1
        (classify tpl).2.2 (dictKeys tpl)).2 =
        missingErrors sample (classify tpl).1 ++
          [extraFieldsMsg (extraKeys sample (dictKeys tpl))] ∧
      (fill_one_sample sample (classify tpl).1 (classify tpl).2.1
        (classify tpl).2.2 (dictKeys tpl)).2.count
          (extraFieldsMsg (extraKeys sample (dictKeys tpl))) = 1) ∧
    (extraKeys sample (dictKeys tpl) = [] →
      (fill_one_sample sample (classify tpl).1 (classify tpl).2.1
        (classify tpl).2.2 (dictKeys tpl)).2 =
        missingErrors sample (classify tpl).1) ∧
    (∀ k d, (k, d) ∈ (classify tpl).2.1 →
      dictGet? (fill_one_sample sample (classify tpl).1 (classify tpl).2.1
        (classify tpl).2.2 (dictKeys tpl)).1 k =
        some ((dictGet? sample k).getD d)) ∧
    (∀ k, k ∈ (classify tpl).1 → (dictGet? sample k).isSome = true →
      dictGet? (fill_one_sample sample (classify tpl).1 (classify tpl).2.1
        (classify tpl).2.2 (dictKeys tpl)).1 k = dictGet? sample k) ∧
    (∀ k, k ∈ (classify tpl).2.2 →
      dictGet? (fill_one_sample sample (classify tpl).1 (classify tpl).2.1
        (classify tpl).2.2 (dictKeys tpl)).1 k = dictGet? sample k) := by
  refine ⟨fun k => mem_extraKeys_iff sample (dictKeys tpl) k, ?_, ?_, ?_, ?_, ?_⟩
  · intro hne
    have hemp : (extraKeys sample (dictKeys tpl)).isEmpty = false := by
      cases h : extraKeys sample (dictKeys tpl) with
      | nil => exact absurd h hne
      | cons a l => rfl
    constructor
    · rw [fill_errors_eq, extraErrors, hemp]
      rfl
    · have hzero : (missingErrors sample (classify tpl).1).count
          (extraFieldsMsg (extraKeys sample (dictKeys tpl))) = 0 := by
        rw [List.count_eq_zero]
        intro hm
        obtain ⟨k', _, hk'⟩ := List.mem_map.mp hm
        exact missingFieldMsg_ne_extraFieldsMsg k' _ hk'
      rw [fill_errors_eq, List.count_append, hzero, extraErrors, hemp]
      simp [List.count_singleton']
  · intro he
    rw [fill_errors_eq, extraErrors, he]
    simp
  · intro k d hk
    exact fill_get_odef hnd sample hk
  · intro k hk hs
    exact fill_get_req_present sample hk hs
  · intro k hk
    exact fill_get_onodef hnd sample hk

/-- Witness for C8: a one-field template and a sample carrying one valid
and one extra key yields the single combined extra-field message. -/
theorem c8_extra_field_error_witness :
    (fill_one_sample [("a", Value.int 1), ("b", Value.int 2)]
      (classify [("a", "String")]).1 (classify [("a", "String")]).2.1
      (classify [("a", "String")]).2.2 (dictKeys [("a", "String")])).2 =
      ["存在模板以外字段: b"] := by
  have h := c8_extra_field_error [("a", "String")]
    [("a", Value.int 1), ("b", Value.int 2)] (by decide)
  have h2 := (h.2.1 (by decide)).1
  rw [h2]
  decide

/-- Claim C10: the classification computed from a template with unique
keys is a disjoint partition of the template keys; every key of the
filled map is a template key; sample keys outside the template land in
the extra-key list (reported in the error list) and are never copied
into the filled map. -/
theorem c10_filled_keys_within_template (tpl : Dict String)
    (sample : Dict Value) (hnd : (dictKeys tpl).Nodup) :
    (∀ k, k ∈ dictKeys tpl ↔
      (k ∈ (classify tpl).1 ∨ k ∈ dictKeys (classify tpl).2.1 ∨
        k ∈ (classify tpl).2.2)) ∧
    (∀ k, (k ∈ (classify tpl).1 →
        k ∉ dictKeys (classify tpl).2.1 ∧ k ∉ (classify tpl).2.2) ∧
      (k ∈ dictKeys (classify tpl).2.1 → k ∉ (classify tpl).2.2)) ∧
    (∀ k, k ∈ dictKeys (fill_one_sample sample (classify tpl).1
        (classify tpl).2.1 (classify tpl).2.2 (dictKeys tpl)).1 →
      k ∈ dictKeys tpl) ∧
    (∀ k, k ∈ dictKeys sample → k ∉ dictKeys tpl →
      k ∈ extraKeys sample (dictKeys tpl) ∧
      k ∉ dictKeys (fill_one_sample sample (classify tpl).1
        (classify tpl).2.1 (classify tpl).2.2 (dictKeys tpl)).1) := by
  refine ⟨fun k => classify_union, ?_, ?_, ?_⟩
  · intro k
    exact ⟨fun hk => ⟨classify_req_not_odef hnd hk,
      classify_req_not_onodef hnd hk⟩,
      fun hk => classify_odef_not_onodef hnd hk⟩
  · intro k hk
    exact fill_keys_subset sample hk
  · intro k hks hkt
    refine ⟨(mem_extraKeys_iff sample (dictKeys tpl) k).mpr ⟨hks, hkt⟩, ?_⟩
    intro hf
    exact hkt (fill_keys_subset sample hf)

/-- Witness for C10: the extra key b of the sample is reported and not
copied into the filled map. -/
theorem c10_filled_keys_within_template_witness :
    "b" ∈ extraKeys [("a", Value.int 1), ("b", Value.int 2)]
      (dictKeys [("a", "String")]) ∧
    "b" ∉ dictKeys (fill_one_sample [("a", Value.int 1), ("b", Value.int 2)]
      (classify [("a", "String")]).1 (classify [("a", "String")]).2.1
      (classify [("a", "String")]).2.2 (dictKeys [("a", "String")])).1 := by
  exact (c10_filled_keys_within_template [("a", "String")]
    [("a", Value.int 1), ("b", Value.int 2)] (by decide)).2.2.2 "b"
    (by decide) (by decide)

/-- Claim C2: the classifier `parse_spec` behaves exactly as the
specification words it — no annotation means Required; an annotation
without default means OptionalWithoutDefault; with a default X, X is
stripped of surrounding whitespace and quotes, parsed as a boolean when
it lowercases to true or false, as a float when it contains a dot,
otherwise as an integer, falling back to the trimmed string on parse
failure. The function is a total Lean function on all strings, which is
the never-raises/purity part of the claim. -/
theorem c2_parse_spec_refines_spec (s : String) :
    parse_spec s = parse_spec_spec s := by
  rw [parse_spec, parse_spec_spec]
  cases optSearch s.data with
  | none => rfl
  | some o =>
    cases o with
    | none => rfl
    | some cap =>
      by_cases h1 : pyLower (pyStripQuotes (pyStripWs cap)) = "true"
      · simp [h1]
      · by_cases h2 : pyLower (pyStripQuotes (pyStripWs cap)) = "false"
        · simp [h1, h2]
        · by_cases h3 : hasDot (pyStripQuotes (pyStripWs cap))
          · cases hf : pyFloat (pyStripQuotes (pyStripWs cap)) with
            | some q => simp [h1, h2, h3, tryNumber, hf]
            | none => simp [h1, h2, h3, tryNumber, hf]
          · cases hi : pyInt (pyStripQuotes (pyStripWs cap)) with
            | some n => simp [h1, h2, h3, tryNumber, hi]
            | none => simp [h1, h2, h3, tryNumber, hi]

theorem flatten_replicate_singleton {α : Type} (n : Nat) (a : α) :
    (List.replicate n [a]).flatten = List.replicate n a := by
  induction n with
  | zero => rfl
  | succ n ih => simp [List.replicate_succ, ih]

/-- Claim C4: for positive sample_count, a single dict normalizes to
that many copies (even for count one); a list of matching length is used
as-is; a singleton list is replicated when the count exceeds one; any
other list length fails with a count-mismatch message stating both
numbers; any other shape fails with the invalid-type message; and every
successful normalization yields exactly sample_count samples. -/
theorem c4_normalize_params (n : Nat) (_hn : 0 < n) :
    (∀ d : Dict Value, normalize_params n (.dict d) =
        .ok (List.replicate n d) ∧
      (List.replicate n d).length = n ∧ ∀ x ∈ List.replicate n d, x = d) ∧
    (∀ l : List (Dict Value), l.length = n →
      normalize_params n (.list l) = .ok l) ∧
    (∀ d : Dict Value, 1 < n →
      normalize_params n (.list [d]) = .ok (List.replicate n d)) ∧
    (∀ l : List (Dict Value), l.length ≠ 1 → l.length ≠ n →
      normalize_params n (.list l) =
        .error ("样本数量不一致：sample_count=" ++ toString n ++
                "，但 params 中有 " ++ toString l.length ++ " 条")) ∧
    (normalize_params n .other = .error "params 必须是 dict 或 list[dict]") ∧
    (∀ raw out, normalize_params n raw = .ok out → out.length = n) := by
  refine ⟨?_, ?_, ?_, ?_, rfl, ?_⟩
  · intro d
    exact ⟨rfl, List.length_replicate n d, fun x hx => List.eq_of_mem_replicate hx⟩
  · intro l hl
    rw [normalize_params, if_pos hl]
  · intro d h1
    rw [normalize_params]
    by_cases hl : ([d] : List (Dict Value)).length = n
    · rw [if_pos hl]
      rw [List.length_singleton] at hl
      rw [← hl]
      rfl
    · rw [if_neg hl, if_pos ⟨List.length_singleton d, h1⟩,
        flatten_replicate_singleton]
  · intro l h1 hn'
    rw [normalize_params, if_neg hn', if_neg (fun hc => h1 hc.1)]
  · intro raw out hok
    cases raw with
    | dict d =>
      rw [normalize_params] at hok
      cases hok
      exact List.length_replicate n d
    | list l =>
      rw [normalize_params] at hok
      by_cases hl : l.length = n
      · rw [if_pos hl] at hok
        cases hok
        exact hl
      · rw [if_neg hl] at hok
        by_cases h1 : l.length = 1 ∧ 1 < n
        · rw [if_pos h1] at hok
          obtain ⟨a, rfl⟩ := List.length_eq_one.mp h1.1
          rw [flatten_replicate_singleton] at hok
          cases hok
          exact List.length_replicate n a
        · rw [if_neg h1] at hok
          cases hok
    | other => cases hok

/-- Witness for C4: three samples against a claimed count of two is a
count mismatch naming both numbers. -/
theorem c4_normalize_params_witness :
    normalize_params 2 (.list [[], [], []]) =
      .error "样本数量不一致：sample_count=2，但 params 中有 3 条" := by
  have h := c4_normalize_params 2 (by decide)
  rw [h.2.2.2.1 [[], [], []] (by decide) (by decide)]
  simp only [Except.error.injEq]
  decide

/-- Claim C5: when the rerank call fails (RuntimeError from timeout,
request failure or bad JSON), the rerank step deterministically returns
the first top_n hits in backend order with the backend score copied
through; the fallback is a total function, so it never raises. -/
theorem c5_rerank_fallback (hits : List Hit) (top_n : Nat) (e : String)
    (_hpos : 0 < top_n) :
    (rerank_step hits top_n (.error e) = fallback_rerank hits top_n) ∧
    ((fallback_rerank hits top_n).length = min top_n hits.length) ∧
    (∀ i, (fallback_rerank hits top_n)[i]? =
      ((hits.take top_n)[i]?).map (fun h => ScoredItem.mk i h.score)) := by
  refine ⟨rfl, ?_, ?_⟩
  · rw [fallback_rerank, List.length_map, List.enum_length, List.length_take]
  · intro i
    rw [fallback_rerank, List.getElem?_map, List.getElem?_enum]
    cases (hits.take top_n)[i]? <;> rfl

/-- Witness for C5 at the spec's concrete scenario: ten hits with scores
nine down to zero and top_n three fall back to indices zero, one, two
with scores nine, eight, seven. -/
theorem c5_rerank_fallback_witness :
    rerank_step [⟨9⟩, ⟨8⟩, ⟨7⟩, ⟨6⟩, ⟨5⟩, ⟨4⟩, ⟨3⟩, ⟨2⟩, ⟨1⟩, ⟨0⟩] 3
      (.error "Rerank API timeout") = [⟨0, 9⟩, ⟨1, 8⟩, ⟨2, 7⟩] := by
  have h := c5_rerank_fallback
    [⟨9⟩, ⟨8⟩, ⟨7⟩, ⟨6⟩, ⟨5⟩, ⟨4⟩, ⟨3⟩, ⟨2⟩, ⟨1⟩, ⟨0⟩] 3
    "Rerank API timeout" (by decide)
  rw [h.1]
  decide

theorem search_body_should_eq (conds : List (String × String × String))
    (query_type : String) :
    (search_body_of_conditions conds query_type).should =
      conds.map (fun c => clause_of query_type (c.2.2, c.1)) := by
  rw [search_body_of_conditions, build_search_body]
  induction conds with
  | nil => rfl
  | cons c cs ih =>
    rw [List.map_cons, List.flatMap_cons, List.map_cons]
    rw [show ((query_of_condition c).terms.zip
      (query_of_condition c).fields).map (clause_of query_type) =
        [clause_of query_type (c.2.2, c.1)] from rfl]
    rw [List.singleton_append]
    exact congrArg _ ih

/-- Claim C7: the query builder emits exactly one clause per condition —
in phrase mode a match clause on the named field with the exact term
(boost 2), in wildcard mode a case-insensitive pattern clause with the
term wrapped in asterisks, boosted 14 on the path-identifying fields
full_workflow_path and tool_path and 2 otherwise — and combines all
clauses with OR semantics in the should list with
minimum_should_match 1. -/
theorem c7_search_body_clauses (conds : List (String × String × String))
    (query_type : String) :
    ((search_body_of_conditions conds query_type).minimum_should_match = 1) ∧
    ((search_body_of_conditions conds query_type).should.length =
      conds.length) ∧
    (query_type = "match_phrase" →
      ∀ i : Nat, (search_body_of_conditions conds query_type).should[i]? =
        (conds[i]?).map (fun c : String × String × String =>
          EsClause.match_ c.1 c.2.2 2)) ∧
    (query_type = "wildcard" →
      ∀ i : Nat, (search_body_of_conditions conds query_type).should[i]? =
        (conds[i]?).map (fun c : String × String × String =>
          EsClause.wildcard c.1 ("*" ++ c.2.2 ++ "*") true
          (if c.1 = "full_workflow_path" ∨ c.1 = "tool_path"
            then 14 else 2))) := by
  refine ⟨rfl, ?_, ?_, ?_⟩
  · rw [search_body_should_eq, List.length_map]
  · intro hq i
    subst hq
    rw [search_body_should_eq, List.getElem?_map]
    cases conds[i]? with
    | none => rfl
    | some c => rfl
  · intro hq i
    subst hq
    rw [search_body_should_eq, List.getElem?_map]
    cases conds[i]? with
    | none => rfl
    | some c => rfl

/-- Witness for C7 at the spec's concrete scenario: two phrase-mode
conditions yield two independent match clauses on their named fields. -/
theorem c7_search_body_clauses_witness :
    (search_body_of_conditions
      [("organization", "AND", "broadinstitute"),
       ("descriptorType", "AND", "WDL")] "match_phrase").should[0]? =
      some (EsClause.match_ "organization" "broadinstitute" 2) := by
  have h := c7_search_body_clauses
    [("organization", "AND", "broadinstitute"),
     ("descriptorType", "AND", "WDL")] "match_phrase"
  rw [h.2.2.1 rfl 0]
  decide

/-- Claim C9: the result-formatting call in search_dockstore passes the
keyword output_full to a function whose parameter is named full_output,
so the call raises a TypeError caught by the tool's outer handler — for
every input with nonempty hits, whether the rerank step succeeded or
fell back, the tool returns an error dictionary and never the results
mapping. -/
theorem c9_search_dockstore_always_errors (hits : List Hit) (top_n : Nat)
    (outcome : Except String (List ScoredItem)) (hne : hits ≠ []) :
    (call_format_results =
      .error "format_results() got an unexpected keyword argument output_full") ∧
    (∀ m, search_dockstore_tail hits top_n outcome ≠ .results m) ∧
    (∃ msg, search_dockstore_tail hits top_n outcome = .error msg) := by
  have hc : call_format_results =
      .error "format_results() got an unexpected keyword argument output_full" := by
    rfl
  have hemp : hits.isEmpty = false := by
    cases hits with
    | nil => exact absurd rfl hne
    | cons a l => rfl
  refine ⟨hc, ?_, ?_⟩
  · intro m
    rw [search_dockstore_tail, hemp]
    rw [hc]
    simp
  · refine ⟨"搜索失败: " ++
      "format_results() got an unexpected keyword argument output_full", ?_⟩
    rw [search_dockstore_tail, hemp]
    rw [hc]
    simp

/-- Witness for C9: with one hit and a successful rerank outcome the
tool still returns an error dictionary. -/
theorem c9_search_dockstore_always_errors_witness :
    (call_format_results =
      .error "format_results() got an unexpected keyword argument output_full") ∧
    (∀ m, search_dockstore_tail [⟨1⟩] 3 (.ok [⟨0, 1⟩]) ≠ .results m) ∧
    (∃ msg, search_dockstore_tail [⟨1⟩] 3 (.ok [⟨0, 1⟩]) = .error msg) :=
  c9_search_dockstore_always_errors [⟨1⟩] 3 (.ok [⟨0, 1⟩]) (by decide)

theorem sampleBlock_ne_empty (i : Nat) (errs : List String) :
    sampleBlock i errs ≠ "" := by
  apply string_ne_empty_of_data_ne_nil
  rw [sampleBlock, data_append, data_append, data_append]
  intro h
  have hlen := congrArg List.length h
  have h4 : ("样本 #").data.length = 4 := rfl
  rw [List.length_append, List.length_append, List.length_append, h4] at hlen
  simp at hlen

theorem build_inputs_fst_length (tpl : Dict String)
    (samples : List (Dict Value)) :
    (build_inputs tpl samples).1.length = samples.length := by
  rw [build_inputs, List.length_map, List.length_map]

theorem build_inputs_fst_getElem (tpl : Dict String)
    (samples : List (Dict Value)) (i : Nat) :
    (build_inputs tpl samples).1[i]? = (samples[i]?).map
      (fun s => (fill_one_sample s (classify tpl).1 (classify tpl).2.1
        (classify tpl).2.2 (dictKeys tpl)).1) := by
  rw [build_inputs]
  rw [List.getElem?_map, List.getElem?_map]
  cases samples[i]? <;> rfl

theorem build_inputs_snd_eq (tpl : Dict String)
    (samples : List (Dict Value)) :
    (build_inputs tpl samples).2 = pyJoin "\n\n" (samples.enum.filterMap
      (fun p =>
        if (fill_one_sample p.2 (classify tpl).1 (classify tpl).2.1
            (classify tpl).2.2 (dictKeys tpl)).2.isEmpty then none
        else some (sampleBlock (p.1 + 1)
          (fill_one_sample p.2 (classify tpl).1 (classify tpl).2.1
            (classify tpl).2.2 (dictKeys tpl)).2))) := by
  rw [build_inputs]
  rw [List.enum_map, List.filterMap_map]
  rfl

theorem build_inputs_blocks_ne_empty (tpl : Dict String)
    (samples : List (Dict Value)) :
    ∀ b ∈ samples.enum.filterMap (fun p =>
        if (fill_one_sample p.2 (classify tpl).1 (classify tpl).2.1
            (classify tpl).2.2 (dictKeys tpl)).2.isEmpty then none
        else some (sampleBlock (p.1 + 1)
          (fill_one_sample p.2 (classify tpl).1 (classify tpl).2.1
            (classify tpl).2.2 (dictKeys tpl)).2)), b ≠ "" := by
  intro b hb
  obtain ⟨p, _, hpb⟩ := List.mem_filterMap.mp hb
  revert hpb
  by_cases he : (fill_one_sample p.2 (classify tpl).1 (classify tpl).2.1
      (classify tpl).2.2 (dictKeys tpl)).2.isEmpty
  · rw [if_pos he]
    intro hpb
    cases hpb
  · rw [if_neg he]
    intro hpb
    have := Option.some.inj hpb
    rw [← this]
    exact sampleBlock_ne_empty _ _

/-- Claim C3 (amended): the composer returns a filled_samples list of
exactly the input length, in input order; each sample's errors
(1-indexed) are collected into a block headed by the Chinese sample
label 样本 followed by the hash-index marker (the code writes 样本, the
Chinese word for sample, not the English word quoted by the original
claim), the per-sample error blocks are joined with blank-line
separators in input order, and the combined string is empty iff no
sample produced an error. -/
theorem c3_build_inputs_shape (tpl : Dict String)
    (samples : List (Dict Value)) :
    ((build_inputs tpl samples).1.length = samples.length) ∧
    (∀ i : Nat, (build_inputs tpl samples).1[i]? = (samples[i]?).map
      (fun s => (fill_one_sample s (classify tpl).1 (classify tpl).2.1
        (classify tpl).2.2 (dictKeys tpl)).1)) ∧
    ((build_inputs tpl samples).2 = pyJoin "\n\n" (samples.enum.filterMap
      (fun p =>
        if (fill_one_sample p.2 (classify tpl).1 (classify tpl).2.1
            (classify tpl).2.2 (dictKeys tpl)).2.isEmpty then none
        else some ("样本 #" ++ toString (p.1 + 1) ++ ":\n" ++ pyJoin "\n"
          (fill_one_sample p.2 (classify tpl).1 (classify tpl).2.1
            (classify tpl).2.2 (dictKeys tpl)).2)))) ∧
    ((build_inputs tpl samples).2 = "" ↔ ∀ s ∈ samples,
      (fill_one_sample s (classify tpl).1 (classify tpl).2.1
        (classify tpl).2.2 (dictKeys tpl)).2 = []) := by
  refine ⟨build_inputs_fst_length tpl samples,
    build_inputs_fst_getElem tpl samples, build_inputs_snd_eq tpl samples, ?_⟩
  rw [build_inputs_snd_eq tpl samples]
  rw [pyJoin_eq_empty_iff _ _ (build_inputs_blocks_ne_empty tpl samples)]
  rw [List.filterMap_eq_nil_iff]
  constructor
  · intro h s hs
    obtain ⟨i, hi⟩ := List.getElem?_of_mem hs
    have hmem : (i, s) ∈ samples.enum := List.mem_enum_iff_getElem?.mpr hi
    have := h (i, s) hmem
    revert this
    by_cases he : (fill_one_sample s (classify tpl).1 (classify tpl).2.1
        (classify tpl).2.2 (dictKeys tpl)).2.isEmpty
    · intro _
      exact List.isEmpty_iff.mp he
    · rw [if_neg he]
      intro hcon
      cases hcon
  · intro h p hp
    have hs : p.2 ∈ samples :=
      List.getElem?_mem (List.mem_enum_iff_getElem?.mp hp)
    rw [if_pos (List.isEmpty_iff.mpr (h p.2 hs))]

/-- Counterexample for claim C3 as stated: the per-sample error prefix is
the Chinese 样本 label, not the literal string quoted in the claim. For a
template with one required field and one empty sample, the combined
error text is nonempty and does not start with the ten characters of
the claimed English prefix. -/
theorem c3_counterexample :
    (build_inputs [("a", "String")] [[]]).2 = "样本 #1:\n缺少必填字段 a" ∧
    (build_inputs [("a", "String")] [[]]).2 ≠ "" ∧
    (build_inputs [("a", "String")] [[]]).2.data.take 10 ≠
      ("sample #1:").data := by
  refine ⟨by decide, by decide, by decide⟩

theorem filter_orderedInsert_score (c : ℚ) (a : RankedItem)
    (l : List RankedItem) :
    (List.orderedInsert rerankRel a l).filter (fun x => x.score == c) =
      (a :: l).filter (fun x => x.score == c) := by
  induction l with
  | nil => rfl
  | cons b l ih =>
    rw [List.orderedInsert]
    by_cases h : rerankRel a b
    · rw [if_pos h]
    · rw [if_neg h]
      have hab : a.score < b.score := lt_of_not_le h
      by_cases hac : a.score = c
      · have hbc : ¬ b.score = c := by
          intro hb
          rw [hb, ← hac] at hab
          exact lt_irrefl _ hab
        rw [List.filter_cons, if_neg (by simp [hbc]), ih,
          List.filter_cons, if_pos (by simp [hac]),
          List.filter_cons, if_pos (by simp [hac]),
          List.filter_cons, if_neg (by simp [hbc])]
      · by_cases hbc : b.score = c
        · rw [List.filter_cons, if_pos (by simp [hbc]), ih,
            List.filter_cons, if_neg (by simp [hac]),
            List.filter_cons, if_neg (by simp [hac]),
            List.filter_cons, if_pos (by simp [hbc])]
        · rw [List.filter_cons, if_neg (by simp [hbc]), ih,
            List.filter_cons, if_neg (by simp [hac]),
            List.filter_cons, if_neg (by simp [hac]),
            List.filter_cons, if_neg (by simp [hbc])]

theorem filter_insertionSort_score (c : ℚ) (l : List RankedItem) :
    (List.insertionSort rerankRel l).filter (fun x => x.score == c) =
      l.filter (fun x => x.score == c) := by
  induction l with
  | nil => rfl
  | cons a l ih =>
    rw [List.insertionSort, filter_orderedInsert_score, List.filter_cons,
      List.filter_cons, ih]

theorem filter_take_eq_take_filter {α : Type} (p : α → Bool) :
    ∀ (l : List α) (k : Nat), ∃ m, (l.take k).filter p = (l.filter p).take m := by
  intro l
  induction l with
  | nil => intro k; exact ⟨0, by simp⟩
  | cons a l ih =>
    intro k
    cases k with
    | zero => exact ⟨0, by simp⟩
    | succ k =>
      obtain ⟨m, hm⟩ := ih k
      by_cases hp : p a
      · exact ⟨m + 1, by simp [List.take_succ_cons, List.filter_cons, hp, hm]⟩
      · exact ⟨m, by simp [List.take_succ_cons, List.filter_cons, hp, hm]⟩

/-- Claim C6 (amended): on rerank-service success, the client returns
the response records sorted in descending score order, truncated to a
truthy top_n; the sort is stable with respect to the order of the
service response list — for every score value, the equal-score records
appear in response order. When the service lists its pairs in backend
index order this coincides with backend order, but the client never
reorders the response toward backend order by itself (see the
counterexample for the claim as originally stated). -/
theorem c6_rerank_success_sorted (texts : List String)
    (resp : List ScoredItem)
    (_hin : ∀ it ∈ resp, it.index < texts.length) :
    ((rerank_success texts resp none).Perm
      (resp.map (fun it => ⟨it.index, it.score, texts.getD it.index ""⟩))) ∧
    (List.Sorted rerankRel (rerank_success texts resp none)) ∧
    (∀ n : Nat, rerank_success texts resp (some (n + 1)) =
      (rerank_success texts resp none).take (n + 1)) ∧
    (∀ n : Nat, (rerank_success texts resp (some (n + 1))).length =
      min (n + 1) resp.length) ∧
    (∀ n : Nat, List.Sorted rerankRel
      (rerank_success texts resp (some (n + 1)))) ∧
    (∀ c : ℚ, (rerank_success texts resp none).filter
        (fun x => x.score == c) =
      (resp.map (fun it => ⟨it.index, it.score, texts.getD it.index ""⟩)).filter
        (fun x => x.score == c)) ∧
    (∀ (n : Nat) (c : ℚ), ∃ m,
      (rerank_success texts resp (some (n + 1))).filter
        (fun x => x.score == c) =
      ((resp.map (fun it => ⟨it.index, it.score, texts.getD it.index ""⟩)).filter
        (fun x => x.score == c)).take m) := by
  refine ⟨List.perm_insertionSort rerankRel _,
    List.sorted_insertionSort rerankRel _, fun n => rfl, ?_, ?_, ?_, ?_⟩
  · intro n
    rw [rerank_success]
    rw [List.length_take, List.length_insertionSort, List.length_map]
  · intro n
    exact (List.sorted_insertionSort rerankRel _).sublist
      (List.take_sublist (n + 1) _)
  · intro c
    exact filter_insertionSort_score c _
  · intro n c
    obtain ⟨m, hm⟩ := filter_take_eq_take_filter
      (fun x : RankedItem => x.score == c)
      (List.insertionSort rerankRel (resp.map
        (fun it => ⟨it.index, it.score, texts.getD it.index ""⟩))) (n + 1)
    exact ⟨m, by rw [rerank_success, hm, filter_insertionSort_score]⟩

/-- Witness for C6 at a concrete input: three in-range response records
are returned sorted in descending score order. -/
theorem c6_rerank_success_sorted_witness :
    List.Sorted rerankRel
      (rerank_success ["a", "b", "c"] [⟨0, 1⟩, ⟨2, 7⟩, ⟨1, 3⟩] none) :=
  (c6_rerank_success_sorted ["a", "b", "c"] [⟨0, 1⟩, ⟨2, 7⟩, ⟨1, 3⟩]
    (by decide)).2.1

/-- Counterexample for claim C6 as stated: the tie-break does not
preserve backend order. With two equal-score response records listed as
index one before index zero, the client keeps the response order, so
the output indices are one then zero, where backend order would demand
zero then one. -/
theorem c6_counterexample :
    ((rerank_success ["a", "b"] [⟨1, 5⟩, ⟨0, 5⟩] (some 2)).map
      (fun r => r.index) = [1, 0]) ∧
    ((rerank_success ["a", "b"] [⟨1, 5⟩, ⟨0, 5⟩] (some 2)).map
      (fun r => r.score) = [5, 5]) ∧
    ((rerank_success ["a", "b"] [⟨1, 5⟩, ⟨0, 5⟩] (some 2)).map
      (fun r => r.index) ≠ [0, 1]) := by
  refine ⟨by decide, by decide, by decide⟩

end Bioos
